import Mathlib

/-!
Shallow embedding of the order subsystem of an e-commerce backend
(Express router over a MySQL pool): order creation inside a single
transaction (address dedup, tracking-number allocation with a bounded
retry loop and a timestamp fallback, order-header insert, line-item
insert with stock decrement), and self-service order cancellation.

Randomness (Math.random), the clock (Date.now) and injected database
errors are modelled as explicit oracles threaded through the functions.
A transaction works on a copy of the database state; the copy becomes
visible only on commit, and any error discards it (rollback).
-/

/-- JavaScript truthiness of an optional numeric field: `undefined` and
`0` are falsy, every other number is truthy. -/
def truthy : Option Nat → Bool
  | none => false
  | some n => n != 0

/-- JavaScript `a || b` on optional numeric fields: returns `a` when `a`
is truthy, otherwise `b` (which may itself be falsy). -/
def jsOr (a b : Option Nat) : Option Nat :=
  if truthy a then a else b

/-- Pop one injected-fault flag from the fault oracle; an exhausted
oracle means the database raises no error. -/
def popFault : List Bool → Bool × List Bool
  | [] => (false, [])
  | f :: fs => (f, fs)

/-- Pop one random number from the randomness oracle (default 0 when
exhausted; `Math.random` always yields a value). -/
def popRand : List Nat → Nat × List Nat
  | [] => (0, [])
  | r :: rs => (r, rs)

/-- Decimal digit character for a digit value below ten. -/
def digitChar (d : Nat) : Char :=
  Char.ofNat (48 + d)

/-- Fuelled big-endian decimal conversion, the standard repeated
division algorithm (`Number.prototype.toString` in base 10). -/
def decCharsAux : Nat → Nat → List Char → List Char
  | 0, _, acc => acc
  | fuel + 1, n, acc =>
    if n < 10 then digitChar (n % 10) :: acc
    else decCharsAux fuel (n / 10) (digitChar (n % 10) :: acc)

/-- Big-endian decimal digit characters of a natural number; `0` maps
to the single character list of the zero digit, matching JavaScript. -/
def decChars (n : Nat) : List Char :=
  decCharsAux (n + 1) n []

/-- JavaScript `String.prototype.slice(-k)`: the last `k` characters
(the whole list when it is shorter than `k`). -/
def lastN (k : Nat) (cs : List Char) : List Char :=
  cs.drop (cs.length - k)

/-- JavaScript `String.prototype.padStart(k, zero)`: left-pad with the
zero digit up to length `k`. -/
def padLeft (k : Nat) (cs : List Char) : List Char :=
  List.replicate (k - cs.length) '0' ++ cs

/-- Build a tracking-number string: the literal TRK header followed by
a digit payload (template literal concatenation in the source). -/
def trackingString (payload : List Char) : String :=
  String.mk ('T' :: 'R' :: 'K' :: payload)

/-- Lower bound of the random tracking payload (6 digits). -/
def trkMin : Nat := 100000

/-- Upper bound of the random tracking payload (8 digits). -/
def trkMax : Nat := 99999999

/-- `generateProfessionalTrackingNumber`: TRK followed by a random
number drawn from the range `trkMin .. trkMax`; the oracle value `r`
is mapped into the range. -/
def genTracking (r : Nat) : String :=
  trackingString (decChars (trkMin + r % (trkMax - trkMin + 1)))

/-- The fallback tracking number: TRK + last 8 characters of the
decimal epoch-millisecond timestamp + a 2-digit zero-padded random
suffix. -/
def fallbackTracking (ts fbRand : Nat) : String :=
  trackingString (lastN 8 (decChars ts) ++ padLeft 2 (decChars (fbRand % 100)))

/-- The retry bound of the tracking-number uniqueness loop
(`maxAttempts` in the source). -/
def trkMaxAttempts : Nat := 10

/-- Does a string match the regular expression `TRK\d{6,10}`? -/
def matchesTRK (s : String) : Bool :=
  match s.data with
  | 'T' :: 'R' :: 'K' :: ds =>
    ds.all (fun c => c.isDigit) && decide (6 ≤ ds.length) && decide (ds.length ≤ 10)
  | _ => false

/-- Errors surfaced by the order-creation transaction; the constructors
mirror the distinct JavaScript error messages. -/
inductive OrderError
  /-- An injected database error (any query throwing). -/
  | dbFault
  /-- The source message about failing to generate a unique tracking
  number after multiple attempts. -/
  | trackingExhausted
deriving DecidableEq, Repr

/-- The uniqueness retry loop of the tracking-number generator: up to
`fuel` attempts, each drawing a random candidate and querying the
orders table (one fault pop per query); returns the first candidate
absent from `existing`, or `none` when every attempt collided. -/
def trackingLoop (existing : List String) :
    Nat → List Nat → List Bool → Except OrderError (Option String × List Nat × List Bool)
  | 0, rands, faults => .ok (none, rands, faults)
  | fuel + 1, rands, faults =>
    let (r, rands') := popRand rands
    let cand := genTracking r
    let (f, faults') := popFault faults
    if f then .error .dbFault
    else if existing.contains cand then trackingLoop existing fuel rands' faults'
    else .ok (some cand, rands', faults')

/-- Full tracking-number allocation: the bounded retry loop, then on
exhaustion the timestamp fallback with one final uniqueness query,
raising `trackingExhausted` when even the fallback collides. -/
def allocateTracking (existing : List String) (rands : List Nat) (fbRand ts : Nat)
    (faults : List Bool) : Except OrderError (String × List Nat × List Bool) :=
  match trackingLoop existing trkMaxAttempts rands faults with
  | .error e => .error e
  | .ok (cand, rs, fs) =>
    match cand with
    | some t => .ok (t, rs, fs)
    | none =>
      let pf := popFault fs
      if pf.1 then .error .dbFault
      else if existing.contains (fallbackTracking ts fbRand) then
        .error .trackingExhausted
      else .ok (fallbackTracking ts fbRand, rs, pf.2)

/-- Order status enumeration. -/
inductive OrderStatus
  | pending
  | processing
  | shipped
  | delivered
  | cancelled
deriving DecidableEq, Repr

/-- A row of the `addresses` table. -/
structure Address where
  address_id : Nat
  user_id : Nat
  street : String
  city : String
  state : String
  country : String
  postal_code : String
  is_shipping : Bool
  is_billing : Bool
deriving DecidableEq, Repr

/-- A row of the `orders` table. -/
structure Order where
  order_id : Nat
  user_id : Nat
  total_amount : Nat
  status : OrderStatus
  shipping_address_id : Nat
  billing_address_id : Nat
  tracking_number : String
deriving DecidableEq, Repr

/-- A row of the `order_items` table; `variant_id` and `unit_price`
may be NULL. -/
structure OrderItem where
  order_item_id : Nat
  order_id : Nat
  variant_id : Option Nat
  quantity : Nat
  unit_price : Option Nat
deriving DecidableEq, Repr

/-- A row of the `product_variants` table; the stock counter is an
integer because the decrement has no floor check. -/
structure Variant where
  variant_id : Nat
  stock_quantity : Int
  price : Nat
deriving DecidableEq, Repr

/-- The visible database state, with auto-increment counters. -/
structure DB where
  addresses : List Address
  orders : List Order
  order_items : List OrderItem
  variants : List Variant
  nextAddressId : Nat
  nextOrderId : Nat
  nextOrderItemId : Nat
deriving DecidableEq, Repr

/-- A structured address from the request body. -/
structure AddrInput where
  street : String
  city : String
  state : String
  country : String
  postal_code : String
deriving DecidableEq, Repr

/-- One entry of the request item list; absent JSON fields are `none`. -/
structure ItemInput where
  variant_id : Option Nat
  product_id : Option Nat
  quantity : Nat
  unit_price : Option Nat
  price : Option Nat
deriving DecidableEq, Repr

/-- The order-creation request body; `items = none` models an absent
or non-array value. -/
structure OrderRequest where
  items : Option (List ItemInput)
  shipping_address : Option AddrInput
  billing_address : Option AddrInput
  total : Nat
deriving DecidableEq, Repr

/-- Request context: the resolved user (post authentication lookup),
the body, and the oracles for randomness, clock and injected faults. -/
structure Ctx where
  userId : Option Nat
  req : OrderRequest
  rands : List Nat
  fallbackRand : Nat
  timestamp : Nat
  faults : List Bool
deriving DecidableEq, Repr

/-- The role an address is inserted for during order creation. -/
inductive AddrRole
  | shipping
  | billing
deriving DecidableEq, Repr

/-- Does `row` match the dedup query: same owner and exact equality on
all five postal components? -/
def addrMatch (uid : Nat) (a : AddrInput) (row : Address) : Bool :=
  row.user_id == uid && row.street == a.street && row.city == a.city &&
    row.state == a.state && row.country == a.country && row.postal_code == a.postal_code

/-- The address row inserted when dedup finds no match: flagged
`is_shipping` for the shipping role and `is_billing` for billing. -/
def mkAddress (aid uid : Nat) (a : AddrInput) (role : AddrRole) : Address :=
  ⟨aid, uid, a.street, a.city, a.state, a.country, a.postal_code,
    role == .shipping, role == .billing⟩

/-- Steps 1–2 of the transaction: SELECT an exact five-component match
scoped to the user; reuse its id, or INSERT a new role-flagged row and
use the fresh id. Each SQL statement pops one fault flag. -/
def findOrCreateAddress (db : DB) (uid : Nat) (a : AddrInput) (role : AddrRole)
    (faults : List Bool) : Except OrderError (Nat × DB × List Bool) :=
  let p1 := popFault faults
  if p1.1 then .error .dbFault
  else
    match db.addresses.find? (addrMatch uid a) with
    | some row => .ok (row.address_id, db, p1.2)
    | none =>
      let p2 := popFault p1.2
      if p2.1 then .error .dbFault
      else
        .ok (db.nextAddressId,
          { db with
            addresses := db.addresses ++ [mkAddress db.nextAddressId uid a role],
            nextAddressId := db.nextAddressId + 1 },
          p2.2)

/-- The variant reference recorded for an item:
`item.variant_id || item.product_id`. -/
def itemRef (it : ItemInput) : Option Nat :=
  jsOr it.variant_id it.product_id

/-- The unit price recorded for an item:
`item.unit_price || item.price`. -/
def itemPrice (it : ItemInput) : Option Nat :=
  jsOr it.unit_price it.price

/-- Step 5 of the transaction: for each item, INSERT the line-item row;
when the coalesced variant reference is truthy, SELECT the variant and,
when found, UPDATE its stock downward by the quantity (a miss is logged
and skipped). Each SQL statement pops one fault flag. -/
def insertItems (db : DB) (oid : Nat) :
    List ItemInput → List Bool → Except OrderError (DB × List Bool)
  | [], faults => .ok (db, faults)
  | it :: rest, faults =>
    let p1 := popFault faults
    if p1.1 then .error .dbFault
    else
      let row : OrderItem := ⟨db.nextOrderItemId, oid, itemRef it, it.quantity, itemPrice it⟩
      let db1 := { db with
        order_items := db.order_items ++ [row],
        nextOrderItemId := db.nextOrderItemId + 1 }
      if truthy (itemRef it) then
        let p2 := popFault p1.2
        if p2.1 then .error .dbFault
        else
          match db1.variants.find? (fun v => some v.variant_id == itemRef it) with
          | some _ =>
            let p3 := popFault p2.2
            if p3.1 then .error .dbFault
            else
              let db2 := { db1 with
                variants := db1.variants.map (fun v =>
                  if some v.variant_id == itemRef it then
                    { v with stock_quantity := v.stock_quantity - (it.quantity : Int) }
                  else v) }
              insertItems db2 oid rest p3.2
          | none => insertItems db1 oid rest p2.2
      else insertItems db1 oid rest p1.2

/-- The transactional body of order creation: address dedup for
shipping then billing, tracking allocation, order-header INSERT
(status pending, total from the request), then the item loop. Works on
a private copy of the state; the caller commits or discards it. -/
def createOrderTx (db : DB) (uid : Nat) (items : List ItemInput) (sa ba : AddrInput)
    (total : Nat) (rands : List Nat) (fbRand ts : Nat) (faults : List Bool) :
    Except OrderError (DB × Nat) :=
  match findOrCreateAddress db uid sa .shipping faults with
  | .error e => .error e
  | .ok (shipId, db1, fs1) =>
    match findOrCreateAddress db1 uid ba .billing fs1 with
    | .error e => .error e
    | .ok (billId, db2, fs2) =>
      match allocateTracking (db2.orders.map (fun o => o.tracking_number))
          rands fbRand ts fs2 with
      | .error e => .error e
      | .ok (trk, _rs, fs3) =>
        let p4 := popFault fs3
        if p4.1 then .error .dbFault
        else
          let oid := db2.nextOrderId
          let o : Order := ⟨oid, uid, total, .pending, shipId, billId, trk⟩
          let db3 := { db2 with orders := db2.orders ++ [o], nextOrderId := oid + 1 }
          match insertItems db3 oid items p4.2 with
          | .error e => .error e
          | .ok (db4, _fs5) => .ok (db4, oid)

/-- Outcome of an order-creation request: HTTP status, resulting
visible database state, whether a transaction was opened, the error
surfaced in the response error field, and the created order id. -/
structure CreateResult where
  status : Nat
  db : DB
  txOpened : Bool
  err : Option OrderError
  createdOrderId : Option Nat
deriving DecidableEq, Repr

/-- The POST order route: cheap validation first (400 before any
transaction), 404 when the user does not resolve, then the transaction;
commit makes the private state visible, any error rolls it back and
answers 500 with the error surfaced. -/
def createOrder (db : DB) (ctx : Ctx) : CreateResult :=
  match ctx.req.items with
  | none => ⟨400, db, false, none, none⟩
  | some items =>
    if items.isEmpty then ⟨400, db, false, none, none⟩
    else
      match ctx.req.shipping_address, ctx.req.billing_address with
      | some sa, some ba =>
        match ctx.userId with
        | none => ⟨404, db, false, none, none⟩
        | some uid =>
          match createOrderTx db uid items sa ba ctx.req.total ctx.rands
              ctx.fallbackRand ctx.timestamp ctx.faults with
          | .ok (txdb, oid) => ⟨201, txdb, true, none, some oid⟩
          | .error e => ⟨500, db, true, some e, none⟩
      | _, _ => ⟨400, db, false, none, none⟩

/-- Does an order row satisfy the self-service cancellation query:
same id, same owner, status pending or processing? -/
def cancellable (oid uid : Nat) (o : Order) : Bool :=
  o.order_id == oid && o.user_id == uid &&
    (o.status == .pending || o.status == .processing)

/-- The PATCH cancel route (self-service): SELECT the order scoped to
the user with status pending or processing; 404 when absent, otherwise
UPDATE the status to cancelled (filtered by id and owner only) and
answer 200. -/
def cancelOrder (db : DB) (userId : Option Nat) (oid : Nat) : Nat × DB :=
  match userId with
  | none => (404, db)
  | some uid =>
    if (db.orders.filter (cancellable oid uid)).isEmpty then (404, db)
    else
      (200, { db with orders := db.orders.map (fun o =>
        if o.order_id == oid && o.user_id == uid then { o with status := .cancelled }
        else o) })

/-! ### Decimal digit facts -/

/-- Digit characters are recognised by `Char.isDigit`. -/
theorem digitChar_isDigit {d : Nat} (h : d < 10) : (digitChar d).isDigit = true := by
  unfold digitChar
  interval_cases d <;> decide

/-- The fuelled conversion only pushes digit characters. -/
theorem decCharsAux_all_digits (fuel : Nat) :
    ∀ (n : Nat) (acc : List Char), acc.all (fun c => c.isDigit) = true →
      (decCharsAux fuel n acc).all (fun c => c.isDigit) = true := by
  induction fuel with
  | zero => intro n acc h; simpa [decCharsAux] using h
  | succ f ih =>
    intro n acc h
    have hd : (digitChar (n % 10)).isDigit = true :=
      digitChar_isDigit (Nat.mod_lt n (by norm_num))
    by_cases hn : n < 10
    · simp [decCharsAux, hn, List.all_cons, hd, h]
    · simp only [decCharsAux, if_neg hn]
      exact ih _ _ (by simp [List.all_cons, hd, h])

/-- Every character of a decimal rendering is a digit. -/
theorem decChars_all_digits (n : Nat) : (decChars n).all (fun c => c.isDigit) = true :=
  decCharsAux_all_digits _ _ _ rfl

/-- Length of the fuelled conversion, given enough fuel. -/
theorem decCharsAux_length (fuel : Nat) :
    ∀ (n : Nat) (acc : List Char), n < fuel →
      (decCharsAux fuel n acc).length = Nat.log 10 n + 1 + acc.length := by
  induction fuel with
  | zero => intro n acc h; exact absurd h (Nat.not_lt_zero n)
  | succ f ih =>
    intro n acc h
    by_cases hn : n < 10
    · simp [decCharsAux, hn, Nat.log_of_lt hn]
      omega
    · have h10 : 10 ≤ n := Nat.le_of_not_lt hn
      have hdiv : n / 10 < f := by
        have h1 : n / 10 < n := Nat.div_lt_self (by omega) (by norm_num)
        omega
      simp only [decCharsAux, if_neg hn]
      rw [ih _ _ hdiv]
      have hlog := Nat.log_of_one_lt_of_le (b := 10) (by norm_num) h10
      simp [List.length_cons]
      omega

/-- The decimal rendering of `n` has `Nat.log 10 n + 1` characters. -/
theorem decChars_length (n : Nat) : (decChars n).length = Nat.log 10 n + 1 := by
  have h := decCharsAux_length (n + 1) n [] (Nat.lt_succ_self n)
  simpa [decChars] using h

/-- Unfolding of the regex check on a built tracking string. -/
theorem matchesTRK_trackingString (ds : List Char) :
    matchesTRK (trackingString ds) =
      (ds.all (fun c => c.isDigit) && decide (6 ≤ ds.length) && decide (ds.length ≤ 10)) := by
  rfl

/-- Base-10 logarithm bounds for numbers of 6 to 8 digits. -/
theorem log10_bounds {n : Nat} (hlo : 100000 ≤ n) (hhi : n < 100000000) :
    5 ≤ Nat.log 10 n ∧ Nat.log 10 n < 8 := by
  constructor
  · have hp : (10 : Nat) ^ 5 ≤ n := by norm_num; omega
    exact (Nat.pow_le_iff_le_log (by norm_num) (by omega)).1 hp
  · have hp : n < (10 : Nat) ^ 8 := by norm_num; omega
    exact (Nat.lt_pow_iff_log_lt (by norm_num) (by omega)).1 hp

/-- Every candidate of the random generator matches `TRK\d{6,10}`
(indeed `TRK\d{6,8}`). -/
theorem genTracking_matches (r : Nat) : matchesTRK (genTracking r) = true := by
  have hmod : r % (trkMax - trkMin + 1) < 99900000 := by
    have h : trkMax - trkMin + 1 = 99900000 := by norm_num [trkMin, trkMax]
    rw [h]
    exact Nat.mod_lt r (by norm_num)
  have hmin : trkMin = 100000 := rfl
  obtain ⟨h6, h8⟩ := log10_bounds (n := trkMin + r % (trkMax - trkMin + 1))
    (by omega) (by omega)
  rw [genTracking, matchesTRK_trackingString]
  simp [decChars_all_digits, decChars_length]
  omega

/-- Digits survive taking a suffix. -/
theorem lastN_all_digits {cs : List Char} (h : cs.all (fun c => c.isDigit) = true)
    (k : Nat) : (lastN k cs).all (fun c => c.isDigit) = true := by
  rw [List.all_eq_true] at h ⊢
  intro c hc
  exact h c (List.drop_subset _ _ hc)

/-- Digits survive left zero padding. -/
theorem padLeft_all_digits {cs : List Char} (h : cs.all (fun c => c.isDigit) = true)
    (k : Nat) : (padLeft k cs).all (fun c => c.isDigit) = true := by
  rw [List.all_eq_true] at h ⊢
  intro c hc
  rcases List.mem_append.1 hc with hr | hr
  · rw [List.eq_of_mem_replicate hr]; decide
  · exact h c hr

/-- For a realistic epoch-millisecond timestamp the fallback tracking
number matches `TRK\d{6,10}` (indeed `TRK\d{10}`). -/
theorem fallbackTracking_matches (ts fb : Nat) (hts : 100000000 ≤ ts) :
    matchesTRK (fallbackTracking ts fb) = true := by
  have hlen1 : (lastN 8 (decChars ts)).length = 8 := by
    have hl : (decChars ts).length = Nat.log 10 ts + 1 := decChars_length ts
    have h8 : 8 ≤ Nat.log 10 ts := by
      have hp : (10 : Nat) ^ 8 ≤ ts := by norm_num; omega
      exact (Nat.pow_le_iff_le_log (by norm_num) (by omega)).1 hp
    simp [lastN, List.length_drop]
    omega
  have hlen2 : (padLeft 2 (decChars (fb % 100))).length = 2 := by
    have hl : (decChars (fb % 100)).length = Nat.log 10 (fb % 100) + 1 :=
      decChars_length _
    have h2 : Nat.log 10 (fb % 100) ≤ 1 := by
      rcases Nat.eq_zero_or_pos (fb % 100) with h0 | h0
      · simp [h0]
      · have hp : fb % 100 < (10 : Nat) ^ 2 := by
          have := Nat.mod_lt fb (y := 100) (by norm_num)
          norm_num
          omega
        have := (Nat.lt_pow_iff_log_lt (b := 10) (by norm_num) (by omega)).1 hp
        omega
    simp [padLeft, List.length_append, List.length_replicate]
    omega
  have hd1 : (lastN 8 (decChars ts)).all (fun c => c.isDigit) = true :=
    lastN_all_digits (decChars_all_digits ts) 8
  have hd2 : (padLeft 2 (decChars (fb % 100))).all (fun c => c.isDigit) = true :=
    padLeft_all_digits (decChars_all_digits _) 2
  rw [fallbackTracking, matchesTRK_trackingString]
  simp [List.all_append, hd1, hd2, List.length_append, hlen1, hlen2]

/-! ### Tracking allocation facts -/

/-- A `contains = false` result means non-membership. -/
theorem contains_false_not_mem {l : List String} {x : String}
    (h : l.contains x = false) : x ∉ l := by
  intro hm
  have h2 : l.contains x = true := by
    simpa [List.contains] using List.elem_eq_true_of_mem hm
  rw [h2] at h
  exact Bool.noConfusion h

/-- A successful retry-loop result is a generator candidate that the
orders table does not contain. -/
theorem trackingLoop_ok_some (existing : List String) :
    ∀ (fuel : Nat) (rands : List Nat) (faults : List Bool) (t : String)
      (rs : List Nat) (fs : List Bool),
      trackingLoop existing fuel rands faults = .ok (some t, rs, fs) →
      (∃ r, t = genTracking r) ∧ existing.contains t = false := by
  intro fuel
  induction fuel with
  | zero =>
    intro rands faults t rs fs h
    simp [trackingLoop] at h
  | succ f ih =>
    intro rands faults t rs fs h
    simp only [trackingLoop] at h
    split at h
    next hf => cases h
    next hf =>
      split at h
      next hc => exact ih _ _ _ _ _ h
      next hc =>
        simp only [Except.ok.injEq, Prod.mk.injEq, Option.some.injEq] at h
        refine ⟨⟨(popRand rands).1, h.1.symm⟩, ?_⟩
        rw [← h.1]
        simpa using hc

/-- With no injected faults the retry loop keeps an empty fault
oracle. -/
theorem trackingLoop_nil_faults (existing : List String) :
    ∀ (fuel : Nat) (rands : List Nat) (x : Option String) (rs : List Nat)
      (fs : List Bool),
      trackingLoop existing fuel rands [] = .ok (x, rs, fs) → fs = [] := by
  intro fuel
  induction fuel with
  | zero =>
    intro rands x rs fs h
    simp only [trackingLoop, Except.ok.injEq, Prod.mk.injEq] at h
    exact h.2.2.symm
  | succ f ih =>
    intro rands x rs fs h
    simp only [trackingLoop, popFault] at h
    split at h
    next => cases h
    next =>
      split at h
      next hc => exact ih _ _ _ _ h
      next hc =>
        simp only [Except.ok.injEq, Prod.mk.injEq] at h
        exact h.2.2.symm

/-- A successful allocation result is either a generator candidate or
the timestamp fallback, and is absent from the orders table. -/
theorem allocateTracking_ok_shape {existing : List String} {rands : List Nat}
    {fb ts : Nat} {faults : List Bool} {t : String} {rs : List Nat}
    {fs : List Bool}
    (h : allocateTracking existing rands fb ts faults = .ok (t, rs, fs)) :
    ((∃ r, t = genTracking r) ∨ t = fallbackTracking ts fb) ∧
      existing.contains t = false := by
  unfold allocateTracking at h
  cases hl : trackingLoop existing trkMaxAttempts rands faults with
  | error e => rw [hl] at h; cases h
  | ok p =>
    obtain ⟨x, rs', fs'⟩ := p
    rw [hl] at h
    cases x with
    | some u =>
      have h2 : (Except.ok (u, rs', fs') :
          Except OrderError (String × List Nat × List Bool)) = Except.ok (t, rs, fs) := h
      simp only [Except.ok.injEq, Prod.mk.injEq] at h2
      obtain ⟨hsh, hc⟩ := trackingLoop_ok_some existing _ _ _ _ _ _ hl
      obtain ⟨r, hr⟩ := hsh
      refine ⟨.inl ⟨r, ?_⟩, ?_⟩
      · rw [← h2.1]; exact hr
      · rw [← h2.1]; exact hc
    | none =>
      have h2 : (if (popFault fs').1 = true then
            (Except.error OrderError.dbFault :
              Except OrderError (String × List Nat × List Bool))
          else if existing.contains (fallbackTracking ts fb) = true then
            Except.error OrderError.trackingExhausted
          else Except.ok (fallbackTracking ts fb, rs', (popFault fs').2)) =
          Except.ok (t, rs, fs) := h
      split at h2
      next hf => cases h2
      next hf =>
        split at h2
        next hcon => cases h2
        next hcon =>
          simp only [Except.ok.injEq, Prod.mk.injEq] at h2
          refine ⟨.inr h2.1.symm, ?_⟩
          rw [← h2.1]
          simpa using hcon

/-- With no injected faults a successful allocation also ends with an
empty fault oracle. -/
theorem allocateTracking_nil_faults {existing : List String} {rands : List Nat}
    {fb ts : Nat} {t : String} {rs : List Nat} {fs : List Bool}
    (h : allocateTracking existing rands fb ts [] = .ok (t, rs, fs)) : fs = [] := by
  unfold allocateTracking at h
  cases hl : trackingLoop existing trkMaxAttempts rands [] with
  | error e => rw [hl] at h; cases h
  | ok p =>
    obtain ⟨x, rs', fs'⟩ := p
    have hfs' : fs' = [] := trackingLoop_nil_faults existing _ _ _ _ _ hl
    subst hfs'
    rw [hl] at h
    cases x with
    | some u =>
      have h2 : (Except.ok (u, rs', []) :
          Except OrderError (String × List Nat × List Bool)) = Except.ok (t, rs, fs) := h
      simp only [Except.ok.injEq, Prod.mk.injEq] at h2
      exact h2.2.2.symm
    | none =>
      have h2 : (if (popFault []).1 = true then
            (Except.error OrderError.dbFault :
              Except OrderError (String × List Nat × List Bool))
          else if existing.contains (fallbackTracking ts fb) = true then
            Except.error OrderError.trackingExhausted
          else Except.ok (fallbackTracking ts fb, rs', (popFault []).2)) =
          Except.ok (t, rs, fs) := h
      split at h2
      next hf => cases h2
      next hf =>
        split at h2
        next hcon => cases h2
        next hcon =>
          simp only [Except.ok.injEq, Prod.mk.injEq] at h2
          exact h2.2.2.symm

/-! ### Address deduplication facts -/

/-- Pure form of the dedup-or-insert step. -/
def dedupResult (db : DB) (uid : Nat) (a : AddrInput) (role : AddrRole) : Nat × DB :=
  match db.addresses.find? (addrMatch uid a) with
  | some row => (row.address_id, db)
  | none =>
    (db.nextAddressId,
      { db with
        addresses := db.addresses ++ [mkAddress db.nextAddressId uid a role],
        nextAddressId := db.nextAddressId + 1 })

/-- With no injected faults the dedup step succeeds and equals its pure
form, keeping the fault oracle empty. -/
theorem findOrCreateAddress_nofault (db : DB) (uid : Nat) (a : AddrInput)
    (role : AddrRole) :
    findOrCreateAddress db uid a role [] =
      .ok ((dedupResult db uid a role).1, (dedupResult db uid a role).2, []) := by
  unfold findOrCreateAddress dedupResult
  cases hf : db.addresses.find? (addrMatch uid a) with
  | some row => simp [popFault, hf]
  | none => simp [popFault, hf]

/-- The dedup step only touches the addresses table and its counter. -/
theorem dedupResult_preserves (db : DB) (uid : Nat) (a : AddrInput) (role : AddrRole) :
    (dedupResult db uid a role).2.orders = db.orders ∧
    (dedupResult db uid a role).2.order_items = db.order_items ∧
    (dedupResult db uid a role).2.variants = db.variants ∧
    (dedupResult db uid a role).2.nextOrderId = db.nextOrderId ∧
    (dedupResult db uid a role).2.nextOrderItemId = db.nextOrderItemId := by
  unfold dedupResult
  cases db.addresses.find? (addrMatch uid a) <;> simp

/-- Any successful dedup step, fault-injected or not, leaves the other
tables untouched. -/
theorem findOrCreateAddress_ok_inv {db : DB} {uid : Nat} {a : AddrInput}
    {role : AddrRole} {faults : List Bool} {aid : Nat} {db' : DB} {fs : List Bool}
    (h : findOrCreateAddress db uid a role faults = .ok (aid, db', fs)) :
    db'.orders = db.orders ∧ db'.order_items = db.order_items ∧
    db'.variants = db.variants ∧ db'.nextOrderId = db.nextOrderId ∧
    db'.nextOrderItemId = db.nextOrderItemId := by
  unfold findOrCreateAddress at h
  by_cases hp1 : (popFault faults).1 = true
  · rw [if_pos hp1] at h; cases h
  · rw [if_neg hp1] at h
    cases hfind : db.addresses.find? (addrMatch uid a) with
    | some row =>
      rw [hfind] at h
      have h2 : (Except.ok (row.address_id, db, (popFault faults).2) :
          Except OrderError (Nat × DB × List Bool)) = .ok (aid, db', fs) := h
      simp only [Except.ok.injEq, Prod.mk.injEq] at h2
      rw [← h2.2.1]
      simp
    | none =>
      rw [hfind] at h
      have h2 : (if (popFault (popFault faults).2).1 = true then
            (Except.error OrderError.dbFault :
              Except OrderError (Nat × DB × List Bool))
          else
            Except.ok (db.nextAddressId,
              { db with
                addresses := db.addresses ++ [mkAddress db.nextAddressId uid a role],
                nextAddressId := db.nextAddressId + 1 },
              (popFault (popFault faults).2).2)) = .ok (aid, db', fs) := h
      by_cases hp2 : (popFault (popFault faults).2).1 = true
      · rw [if_pos hp2] at h2; cases h2
      · rw [if_neg hp2] at h2
        simp only [Except.ok.injEq, Prod.mk.injEq] at h2
        rw [← h2.2.1]
        simp

/-! ### Line-item loop facts -/

/-- The line-item rows inserted for an item list, starting from a given
auto-increment value. -/
def mkRows (oid : Nat) : Nat → List ItemInput → List OrderItem
  | _, [] => []
  | nid, it :: rest =>
    ⟨nid, oid, itemRef it, it.quantity, itemPrice it⟩ :: mkRows oid (nid + 1) rest

/-- Does this item decrement the stock of variant `vid`: a truthy
coalesced reference equal to `vid`. -/
def wantsDec (vid : Nat) (it : ItemInput) : Bool :=
  truthy (itemRef it) && (itemRef it == some vid)

/-- Total quantity the item list takes from variant `vid`. -/
def demandOn (vid : Nat) : List ItemInput → Nat
  | [] => 0
  | it :: rest => (if wantsDec vid it then it.quantity else 0) + demandOn vid rest

/-- The aggregate stock effect of the item loop on one variant row. -/
def decStock (items : List ItemInput) (v : Variant) : Variant :=
  { v with stock_quantity := v.stock_quantity - (demandOn v.variant_id items : Int) }

theorem decStock_nil (v : Variant) : decStock [] v = v := by
  obtain ⟨vid, st, pr⟩ := v
  simp [decStock, demandOn]

theorem map_decStock_nil (l : List Variant) : l.map (decStock []) = l := by
  induction l with
  | nil => rfl
  | cons v t ih => simp [decStock_nil, ih]

theorem decStock_skip {it : ItemInput} (rest : List ItemInput)
    (htr : truthy (itemRef it) = false) (v : Variant) :
    decStock (it :: rest) v = decStock rest v := by
  simp [decStock, demandOn, wantsDec, htr]

theorem decStock_nomatch {it : ItemInput} (rest : List ItemInput) {v : Variant}
    (hne : itemRef it ≠ some v.variant_id) :
    decStock (it :: rest) v = decStock rest v := by
  have hb : (itemRef it == some v.variant_id) = false := beq_eq_false_iff_ne.2 hne
  simp [decStock, demandOn, wantsDec, hb]

theorem decStock_step {it : ItemInput} (rest : List ItemInput)
    (htr : truthy (itemRef it) = true) (v : Variant) :
    decStock rest (if some v.variant_id == itemRef it then
        { v with stock_quantity := v.stock_quantity - (it.quantity : Int) } else v) =
      decStock (it :: rest) v := by
  obtain ⟨vid, st, pr⟩ := v
  by_cases hm : itemRef it = some vid
  · have hb1 : (some vid == itemRef it) = true := beq_iff_eq.2 hm.symm
    have hb2 : (itemRef it == some vid) = true := beq_iff_eq.2 hm
    simp only [hb1, if_true, decStock, demandOn, wantsDec, htr, hb2, Bool.and_self,
      if_pos]
    simp [Variant.mk.injEq]
    ring
  · have hb1 : (some vid == itemRef it) = false := beq_eq_false_iff_ne.2 (Ne.symm hm)
    have hb2 : (itemRef it == some vid) = false := beq_eq_false_iff_ne.2 hm
    simp [hb1, decStock, demandOn, wantsDec, hb2]

/-- Closed form of the item loop with no injected faults: every row is
inserted, the counter advances by the item count, and each variant row
loses exactly the aggregate demanded quantity. -/
theorem insertItems_nofault (items : List ItemInput) :
    ∀ (db : DB) (oid : Nat),
      insertItems db oid items [] =
        .ok ({ db with
          order_items := db.order_items ++ mkRows oid db.nextOrderItemId items,
          nextOrderItemId := db.nextOrderItemId + items.length,
          variants := db.variants.map (decStock items) }, []) := by
  induction items with
  | nil =>
    intro db oid
    obtain ⟨ad, os, oi, vs, na, no, ni⟩ := db
    simp [insertItems, mkRows, map_decStock_nil]
  | cons it rest ih =>
    intro db oid
    obtain ⟨ad, os, oi, vs, na, no, ni⟩ := db
    by_cases htr : truthy (itemRef it) = true
    · cases hfind : vs.find? (fun v => some v.variant_id == itemRef it) with
      | some w =>
        simp only [insertItems, popFault, htr, if_true, hfind]
        rw [ih]
        simp [mkRows]
        refine ⟨?_, by omega⟩
        intro v hv
        have hstep := decStock_step rest htr v
        by_cases hm : some v.variant_id = itemRef it
        · rw [if_pos (beq_iff_eq.2 hm)] at hstep
          rw [if_pos hm]
          exact hstep
        · have hb : (some v.variant_id == itemRef it) = false :=
            beq_eq_false_iff_ne.2 hm
          rw [if_neg (by rw [hb]; exact Bool.false_ne_true)] at hstep
          rw [if_neg hm]
          exact hstep
      | none =>
        have hvmap : vs.map (decStock rest) = vs.map (decStock (it :: rest)) := by
          refine List.map_congr_left ?_
          intro v hv
          have hne := List.find?_eq_none.1 hfind v hv
          refine (decStock_nomatch rest ?_).symm
          intro hc
          exact hne (beq_iff_eq.2 hc.symm)
        simp only [insertItems, popFault, htr, if_true, hfind]
        rw [ih]
        simp [mkRows, hvmap]
        all_goals try omega
    · have htr' : truthy (itemRef it) = false := by
        simpa using htr
      have hvmap : vs.map (decStock rest) = vs.map (decStock (it :: rest)) :=
        List.map_congr_left (fun v _ => (decStock_skip rest htr' v).symm)
      simp only [insertItems, popFault, htr', if_false, Bool.false_eq_true]
      rw [ih]
      simp [mkRows, hvmap]
      all_goals try omega

/-- Any successful item loop, fault-injected or not, leaves the orders
and addresses tables untouched. -/
theorem insertItems_ok_inv :
    ∀ (items : List ItemInput) (db : DB) (oid : Nat) (faults : List Bool)
      (db' : DB) (fs' : List Bool),
      insertItems db oid items faults = .ok (db', fs') →
      db'.orders = db.orders ∧ db'.addresses = db.addresses := by
  intro items
  induction items with
  | nil =>
    intro db oid faults db' fs' h
    simp only [insertItems, Except.ok.injEq, Prod.mk.injEq] at h
    rw [← h.1]
    exact ⟨rfl, rfl⟩
  | cons it rest ih =>
    intro db oid faults db' fs' h
    obtain ⟨ad, os, oi, vs, na, no, ni⟩ := db
    simp only [insertItems] at h
    by_cases hp1 : (popFault faults).1 = true
    · rw [if_pos hp1] at h; cases h
    · rw [if_neg hp1] at h
      by_cases htr : truthy (itemRef it) = true
      · rw [if_pos htr] at h
        by_cases hp2 : (popFault (popFault faults).2).1 = true
        · rw [if_pos hp2] at h; cases h
        · rw [if_neg hp2] at h
          cases hfind : vs.find? (fun v => some v.variant_id == itemRef it) with
          | some w =>
            simp only [hfind] at h
            by_cases hp3 : (popFault (popFault (popFault faults).2).2).1 = true
            · rw [if_pos hp3] at h; cases h
            · rw [if_neg hp3] at h
              have h3 := ih _ _ _ _ _ h
              exact h3
          | none =>
            simp only [hfind] at h
            have h3 := ih _ _ _ _ _ h
            exact h3
      · rw [if_neg htr] at h
        have h3 := ih _ _ _ _ _ h
        exact h3

/-! ### Transaction-level facts -/

/-- Pure closed form of the fault-free transaction body, given the
allocated tracking number. -/
def txPure (db : DB) (uid : Nat) (items : List ItemInput) (sa ba : AddrInput)
    (total : Nat) (trk : String) : DB × Nat :=
  let s := dedupResult db uid sa .shipping
  let b := dedupResult s.2 uid ba .billing
  let oid := b.2.nextOrderId
  let db3 : DB := { b.2 with
    orders := b.2.orders ++ [⟨oid, uid, total, .pending, s.1, b.1, trk⟩],
    nextOrderId := oid + 1 }
  ({ db3 with
    order_items := db3.order_items ++ mkRows oid db3.nextOrderItemId items,
    nextOrderItemId := db3.nextOrderItemId + items.length,
    variants := db3.variants.map (decStock items) }, oid)

/-- With no injected faults the transaction body reduces to tracking
allocation against the original orders table followed by the pure
pipeline. -/
theorem createOrderTx_nofault (db : DB) (uid : Nat) (items : List ItemInput)
    (sa ba : AddrInput) (total : Nat) (rands : List Nat) (fbRand ts : Nat) :
    createOrderTx db uid items sa ba total rands fbRand ts [] =
      match allocateTracking (db.orders.map (fun o => o.tracking_number))
          rands fbRand ts [] with
      | .error e => .error e
      | .ok (trk, _, _) => .ok (txPure db uid items sa ba total trk) := by
  have horders : (dedupResult (dedupResult db uid sa AddrRole.shipping).2 uid ba
      AddrRole.billing).2.orders = db.orders := by
    rw [(dedupResult_preserves _ _ _ _).1, (dedupResult_preserves _ _ _ _).1]
  unfold createOrderTx
  simp only [findOrCreateAddress_nofault]
  rw [horders]
  cases halloc : allocateTracking (db.orders.map (fun o => o.tracking_number))
      rands fbRand ts [] with
  | error e => rfl
  | ok p =>
    obtain ⟨trk, rs, fs⟩ := p
    have hfs : fs = [] := allocateTracking_nil_faults halloc
    subst hfs
    simp only [popFault, insertItems_nofault]
    unfold txPure
    simp [horders]

/-- Inversion of any successful transaction, fault-injected or not:
exactly one pending order row is appended, referencing a tracking
number that is either a generator candidate or the timestamp fallback
and that was absent from the orders table. -/
theorem createOrderTx_ok_inv {db : DB} {uid : Nat} {items : List ItemInput}
    {sa ba : AddrInput} {total : Nat} {rands : List Nat} {fbRand ts : Nat}
    {faults : List Bool} {d : DB} {oid : Nat}
    (h : createOrderTx db uid items sa ba total rands fbRand ts faults = .ok (d, oid)) :
    ∃ (trk : String) (shipId billId : Nat),
      ((∃ r, trk = genTracking r) ∨ trk = fallbackTracking ts fbRand) ∧
      (db.orders.map (fun o => o.tracking_number)).contains trk = false ∧
      oid = db.nextOrderId ∧
      d.orders = db.orders ++
        [⟨oid, uid, total, OrderStatus.pending, shipId, billId, trk⟩] := by
  unfold createOrderTx at h
  cases h1 : findOrCreateAddress db uid sa .shipping faults with
  | error e => rw [h1] at h; cases h
  | ok q1 =>
    obtain ⟨shipId, db1, fs1⟩ := q1
    simp only [h1] at h
    have inv1 := findOrCreateAddress_ok_inv h1
    cases h2 : findOrCreateAddress db1 uid ba .billing fs1 with
    | error e => simp only [h2] at h; cases h
    | ok q2 =>
      obtain ⟨billId, db2, fs2⟩ := q2
      simp only [h2] at h
      have inv2 := findOrCreateAddress_ok_inv h2
      have hord2 : db2.orders = db.orders := by rw [inv2.1, inv1.1]
      have hnoid : db2.nextOrderId = db.nextOrderId := by
        rw [inv2.2.2.2.1, inv1.2.2.2.1]
      cases h3 : allocateTracking (db2.orders.map (fun o => o.tracking_number))
          rands fbRand ts fs2 with
      | error e => simp only [h3] at h; cases h
      | ok q3 =>
        obtain ⟨trk, rs, fs3⟩ := q3
        simp only [h3] at h
        have hshape := allocateTracking_ok_shape h3
        by_cases hp4 : (popFault fs3).1 = true
        · rw [if_pos hp4] at h; cases h
        · rw [if_neg hp4] at h
          split at h
          next heq => cases h
          next db4 fs5 heq =>
            simp only [Except.ok.injEq, Prod.mk.injEq] at h
            have hii := (insertItems_ok_inv _ _ _ _ _ _ heq).1
            refine ⟨trk, shipId, billId, hshape.1, ?_, ?_, ?_⟩
            · rw [← hord2]; exact hshape.2
            · rw [← h.2, hnoid]
            · rw [← h.1, hii]
              simp [hord2, hnoid]
              rw [← h.2]
              exact hnoid.symm

/-- Every non-201 outcome of the POST order route leaves the visible
database unchanged (validation rejections, missing user, rollback). -/
theorem createOrder_rollback (db : DB) (ctx : Ctx)
    (h : (createOrder db ctx).status ≠ 201) : (createOrder db ctx).db = db := by
  unfold createOrder at h ⊢
  cases hi : ctx.req.items with
  | none => simp [hi]
  | some items =>
    simp only [hi] at h ⊢
    cases hne : items.isEmpty with
    | true => simp [hne]
    | false =>
      simp only [hne, Bool.false_eq_true, if_false] at h ⊢
      cases hs : ctx.req.shipping_address with
      | none => simp [hs]
      | some sa =>
        cases hb : ctx.req.billing_address with
        | none => simp [hs, hb]
        | some ba =>
          simp only [hs, hb] at h ⊢
          cases hu : ctx.userId with
          | none => simp [hu]
          | some uid =>
            simp only [hu] at h ⊢
            cases htx : createOrderTx db uid items sa ba ctx.req.total ctx.rands
                ctx.fallbackRand ctx.timestamp ctx.faults with
            | error e => simp [htx]
            | ok p =>
              obtain ⟨d, oid⟩ := p
              simp only [htx] at h
              exact absurd rfl h

/-- Inversion of a 201 outcome: the request was valid, the user
resolved, and the transaction body committed. -/
theorem createOrder_201_inv {db : DB} {ctx : Ctx}
    (h201 : (createOrder db ctx).status = 201) :
    ∃ items sa ba uid d oid,
      ctx.req.items = some items ∧ items.isEmpty = false ∧
      ctx.req.shipping_address = some sa ∧ ctx.req.billing_address = some ba ∧
      ctx.userId = some uid ∧
      createOrderTx db uid items sa ba ctx.req.total ctx.rands ctx.fallbackRand
        ctx.timestamp ctx.faults = .ok (d, oid) ∧
      createOrder db ctx = ⟨201, d, true, none, some oid⟩ := by
  unfold createOrder at h201
  cases hi : ctx.req.items with
  | none => simp [hi] at h201
  | some items =>
    simp only [hi] at h201
    cases hne : items.isEmpty with
    | true => simp [hne] at h201
    | false =>
      simp only [hne, Bool.false_eq_true, if_false] at h201
      cases hs : ctx.req.shipping_address with
      | none => simp [hs] at h201
      | some sa =>
        cases hb : ctx.req.billing_address with
        | none => simp [hs, hb] at h201
        | some ba =>
          simp only [hs, hb] at h201
          cases hu : ctx.userId with
          | none => simp [hu] at h201
          | some uid =>
            simp only [hu] at h201
            cases htx : createOrderTx db uid items sa ba ctx.req.total ctx.rands
                ctx.fallbackRand ctx.timestamp ctx.faults with
            | error e => simp [htx] at h201
            | ok p =>
              obtain ⟨d, oid⟩ := p
              refine ⟨items, sa, ba, uid, d, oid, rfl, hne, rfl, rfl, rfl, htx, ?_⟩
              unfold createOrder
              simp [hi, hne, hs, hb, hu, htx]

/-- With a valid request, a resolved user and no injected faults, the
route reduces to tracking allocation followed by the pure pipeline. -/
theorem createOrder_nofault_run (db : DB) (ctx : Ctx) (items : List ItemInput)
    (sa ba : AddrInput) (uid : Nat)
    (hi : ctx.req.items = some items) (hne : items.isEmpty = false)
    (hs : ctx.req.shipping_address = some sa) (hb : ctx.req.billing_address = some ba)
    (hu : ctx.userId = some uid) (hf : ctx.faults = []) :
    createOrder db ctx =
      match allocateTracking (db.orders.map (fun o => o.tracking_number)) ctx.rands
          ctx.fallbackRand ctx.timestamp [] with
      | .ok (trk, _, _) =>
        ⟨201, (txPure db uid items sa ba ctx.req.total trk).1, true, none,
          some (txPure db uid items sa ba ctx.req.total trk).2⟩
      | .error e => ⟨500, db, true, some e, none⟩ := by
  unfold createOrder
  simp only [hi, hne, hs, hb, hu, hf, Bool.false_eq_true, if_false]
  rw [createOrderTx_nofault]
  cases halloc : allocateTracking (db.orders.map (fun o => o.tracking_number))
      ctx.rands ctx.fallbackRand ctx.timestamp [] with
  | error e => rfl
  | ok p =>
    obtain ⟨trk, rs, fs⟩ := p
    rfl

/-- Components of the pure pipeline result: the fresh order id, the
appended pending order row, the appended line-item rows, and the stock
map. -/
theorem txPure_spec (db : DB) (uid : Nat) (items : List ItemInput) (sa ba : AddrInput)
    (total : Nat) (trk : String) :
    (txPure db uid items sa ba total trk).2 = db.nextOrderId ∧
    (txPure db uid items sa ba total trk).1.order_items =
      db.order_items ++ mkRows db.nextOrderId db.nextOrderItemId items ∧
    (txPure db uid items sa ba total trk).1.variants =
      db.variants.map (decStock items) ∧
    ∃ shipId billId,
      (txPure db uid items sa ba total trk).1.orders =
        db.orders ++ [⟨db.nextOrderId, uid, total, OrderStatus.pending,
          shipId, billId, trk⟩] := by
  have p1 := dedupResult_preserves db uid sa .shipping
  have p2 := dedupResult_preserves (dedupResult db uid sa .shipping).2 uid ba .billing
  unfold txPure
  refine ⟨?_, ?_, ?_, (dedupResult db uid sa .shipping).1,
    (dedupResult (dedupResult db uid sa .shipping).2 uid ba .billing).1, ?_⟩
  · simp [p2.2.2.2.1, p1.2.2.2.1]
  · simp [p2.2.1, p1.2.1, p2.2.2.2.1, p1.2.2.2.1, p2.2.2.2.2, p1.2.2.2.2]
  · simp [p2.2.2.1, p1.2.2.1]
  · simp [p2.1, p1.1, p2.2.2.2.1, p1.2.2.2.1]

/-- One inserted row per input item. -/
theorem mkRows_length (oid : Nat) :
    ∀ (nid : Nat) (items : List ItemInput), (mkRows oid nid items).length = items.length := by
  intro nid items
  induction items generalizing nid with
  | nil => rfl
  | cons it rest ih => simp [mkRows, ih]

/-- Pointwise contents of the inserted rows: owning order, coalesced
variant reference, quantity, and coalesced unit price. -/
theorem mkRows_forall2 (oid : Nat) :
    ∀ (nid : Nat) (items : List ItemInput),
      List.Forall₂ (fun (r : OrderItem) (it : ItemInput) =>
        r.order_id = oid ∧ r.variant_id = itemRef it ∧ r.quantity = it.quantity ∧
          r.unit_price = itemPrice it) (mkRows oid nid items) items := by
  intro nid items
  induction items generalizing nid with
  | nil => exact List.Forall₂.nil
  | cons it rest ih => exact List.Forall₂.cons ⟨rfl, rfl, rfl, rfl⟩ (ih _)

/-- Every inserted row carries the created order id. -/
theorem mkRows_order_id (oid : Nat) :
    ∀ (nid : Nat) (items : List ItemInput) (r : OrderItem),
      r ∈ mkRows oid nid items → r.order_id = oid := by
  intro nid items
  induction items generalizing nid with
  | nil => intro r hr; cases hr
  | cons it rest ih =>
    intro r hr
    rcases List.mem_cons.1 hr with h | h
    · rw [h]
    · exact ih _ _ h

/-- The quantity-times-price sum of an item list, with NULL prices
read as zero. -/
def itemsSumOf : List ItemInput → Nat
  | [] => 0
  | it :: rest => it.quantity * (itemPrice it).getD 0 + itemsSumOf rest

/-- The stored line-item sum for one order id. -/
def itemsSumAt (db : DB) (oid : Nat) : Nat :=
  ((db.order_items.filter (fun r => r.order_id == oid)).map
    (fun r => r.quantity * r.unit_price.getD 0)).sum

/-- The inserted rows alone sum to the input sum. -/
theorem mkRows_sum (oid : Nat) :
    ∀ (nid : Nat) (items : List ItemInput),
      ((mkRows oid nid items).map (fun r => r.quantity * r.unit_price.getD 0)).sum =
        itemsSumOf items := by
  intro nid items
  induction items generalizing nid with
  | nil => rfl
  | cons it rest ih => simp [mkRows, itemsSumOf, ih]

/-- The inserted rows all pass the order-id filter. -/
theorem mkRows_filter (oid : Nat) (nid : Nat) (items : List ItemInput) :
    (mkRows oid nid items).filter (fun r => r.order_id == oid) =
      mkRows oid nid items := by
  rw [List.filter_eq_self]
  intro r hr
  simp [mkRows_order_id oid nid items r hr]

/-! ### Claim theorems -/

/-- Shipping address used by concrete runs. -/
def addrA : AddrInput := ⟨"1 Main St", "Springfield", "IL", "US", "62701"⟩

/-- Billing address used by concrete runs. -/
def addrB : AddrInput := ⟨"9 Oak Ave", "Metropolis", "NY", "US", "10001"⟩

/-- C1: order creation is atomic. On any exception inside the
transactional steps the route answers non-201 and the visible database
is exactly the original one (no order, line-item, address, or stock
write persists); on success the visible database is the committed
transaction state, switched in one step. -/
theorem order_creation_atomic (db : DB) (ctx : Ctx) :
    ((createOrder db ctx).status ≠ 201 → (createOrder db ctx).db = db) ∧
    ((createOrder db ctx).status = 201 →
      ∃ items sa ba uid d oid,
        ctx.req.items = some items ∧ ctx.req.shipping_address = some sa ∧
        ctx.req.billing_address = some ba ∧ ctx.userId = some uid ∧
        createOrderTx db uid items sa ba ctx.req.total ctx.rands ctx.fallbackRand
          ctx.timestamp ctx.faults = .ok (d, oid) ∧
        (createOrder db ctx).db = d) := by
  constructor
  · exact createOrder_rollback db ctx
  · intro h201
    obtain ⟨items, sa, ba, uid, d, oid, hi, hne, hs, hb, hu, htx, hrun⟩ :=
      createOrder_201_inv h201
    exact ⟨items, sa, ba, uid, d, oid, hi, hs, hb, hu, htx, by rw [hrun]⟩

/-- Witness for C1: a run whose first in-transaction statement throws
answers 500 and leaves the database untouched. -/
def wDb1 : DB := ⟨[], [], [], [⟨5, 10, 100⟩], 1, 1, 1⟩

/-- Request context for the C1 witness, with one injected fault. -/
def wCtx1 : Ctx :=
  ⟨some 1, ⟨some [⟨some 5, none, 1, some 10, none⟩], some addrA, some addrB, 10⟩,
    [], 0, 100000000, [true]⟩

theorem order_creation_atomic_witness :
    (createOrder wDb1 wCtx1).status = 500 ∧ (createOrder wDb1 wCtx1).db = wDb1 :=
  ⟨by decide, (order_creation_atomic wDb1 wCtx1).1 (by decide)⟩

/-- C2: a request with no item list, an empty item list, or a missing
shipping or billing address is rejected with HTTP 400 before any
transaction is opened and with the database unchanged. -/
theorem create_validation_first (db : DB) (ctx : Ctx)
    (h : ctx.req.items = none ∨ ctx.req.items = some [] ∨
      ctx.req.shipping_address = none ∨ ctx.req.billing_address = none) :
    createOrder db ctx = ⟨400, db, false, none, none⟩ := by
  unfold createOrder
  rcases h with h | h | h | h
  · simp [h]
  · simp [h]
  · cases hi : ctx.req.items with
    | none => simp
    | some items =>
      cases hne : items.isEmpty with
      | true => simp [hne]
      | false =>
        cases hb : ctx.req.billing_address with
        | none => simp [hne, h, hb]
        | some ba => simp [hne, h, hb]
  · cases hi : ctx.req.items with
    | none => simp
    | some items =>
      cases hne : items.isEmpty with
      | true => simp [hne]
      | false =>
        cases hs : ctx.req.shipping_address with
        | none => simp [hne, h, hs]
        | some sa => simp [hne, h, hs]

/-- Database for the C2 witness. -/
def wDb2 : DB := ⟨[], [], [], [], 1, 1, 1⟩

/-- Context for the C2 witness: the item list is absent. -/
def wCtx2 : Ctx := ⟨some 1, ⟨none, some addrA, some addrB, 0⟩, [], 0, 100000000, []⟩

theorem create_validation_first_witness :
    createOrder wDb2 wCtx2 = ⟨400, wDb2, false, none, none⟩ :=
  create_validation_first wDb2 wCtx2 (Or.inl rfl)

/-- C3: the retry bound is 10 and every order committed by the route
carries a tracking number that matches `TRK\d{6,10}` and was absent
from the orders table when allocated (for any realistic
epoch-millisecond timestamp). -/
theorem tracking_number_format (db : DB) (ctx : Ctx)
    (hts : 100000000 ≤ ctx.timestamp)
    (h201 : (createOrder db ctx).status = 201) :
    trkMaxAttempts = 10 ∧
    ∃ o : Order,
      (createOrder db ctx).db.orders = db.orders ++ [o] ∧
      matchesTRK o.tracking_number = true ∧
      o.tracking_number ∉ db.orders.map (fun q => q.tracking_number) := by
  refine ⟨rfl, ?_⟩
  obtain ⟨items, sa, ba, uid, d, oid, hi, hne, hs, hb, hu, htx, hrun⟩ :=
    createOrder_201_inv h201
  obtain ⟨trk, shipId, billId, hshape, hcont, hoid, hords⟩ := createOrderTx_ok_inv htx
  refine ⟨⟨oid, uid, ctx.req.total, .pending, shipId, billId, trk⟩, ?_, ?_, ?_⟩
  · rw [hrun]; exact hords
  · rcases hshape with ⟨r, hr⟩ | hfb
    · rw [hr]; exact genTracking_matches r
    · rw [hfb]; exact fallbackTracking_matches ctx.timestamp ctx.fallbackRand hts
  · exact contains_false_not_mem hcont

/-- Database for the C3 witness. -/
def wDb3 : DB := ⟨[], [], [], [⟨5, 10, 100⟩], 1, 1, 1⟩

/-- Context for the C3 witness: a valid one-item order placed at a
present-day timestamp. -/
def wCtx3 : Ctx :=
  ⟨some 1, ⟨some [⟨some 5, none, 2, some 10, none⟩], some addrA, some addrB, 20⟩,
    [], 0, 1700000000000, []⟩

theorem tracking_number_format_witness :
    trkMaxAttempts = 10 ∧
    ∃ o : Order,
      (createOrder wDb3 wCtx3).db.orders = wDb3.orders ++ [o] ∧
      matchesTRK o.tracking_number = true ∧
      o.tracking_number ∉ wDb3.orders.map (fun q => q.tracking_number) :=
  tracking_number_format wDb3 wCtx3 (by decide) (by decide)

/-- C4: when all 10 loop attempts collide and the timestamp fallback
also collides, the route fails with the dedicated tracking-exhaustion
error (surfaced in the 500 response error field), distinct from the
generic injected-database-failure error, and rolls everything back. -/
theorem tracking_exhaustion_conflict (db : DB) (ctx : Ctx) (items : List ItemInput)
    (sa ba : AddrInput) (uid : Nat) (rs : List Nat)
    (hi : ctx.req.items = some items) (hne : items.isEmpty = false)
    (hs : ctx.req.shipping_address = some sa) (hb : ctx.req.billing_address = some ba)
    (hu : ctx.userId = some uid) (hf : ctx.faults = [])
    (hloop : trackingLoop (db.orders.map (fun o => o.tracking_number)) trkMaxAttempts
      ctx.rands [] = .ok (none, rs, []))
    (hfall : (db.orders.map (fun o => o.tracking_number)).contains
      (fallbackTracking ctx.timestamp ctx.fallbackRand) = true) :
    createOrder db ctx = ⟨500, db, true, some .trackingExhausted, none⟩ ∧
    OrderError.trackingExhausted ≠ OrderError.dbFault := by
  have halloc : allocateTracking (db.orders.map (fun o => o.tracking_number)) ctx.rands
      ctx.fallbackRand ctx.timestamp [] = .error .trackingExhausted := by
    unfold allocateTracking
    rw [hloop]
    show (if (db.orders.map (fun o => o.tracking_number)).contains
          (fallbackTracking ctx.timestamp ctx.fallbackRand) = true then
        (Except.error OrderError.trackingExhausted :
          Except OrderError (String × List Nat × List Bool))
      else Except.ok (fallbackTracking ctx.timestamp ctx.fallbackRand, rs, [])) =
      Except.error OrderError.trackingExhausted
    rw [if_pos hfall]
  rw [createOrder_nofault_run db ctx items sa ba uid hi hne hs hb hu hf, halloc]
  exact ⟨rfl, by decide⟩

/-- Database for the C4 witness: the orders table already holds both
the only candidate the exhausted randomness oracle can produce and the
timestamp fallback. -/
def wDb4 : DB :=
  ⟨[], [⟨1, 1, 10, .pending, 1, 1, "TRK100000"⟩,
    ⟨2, 1, 10, .pending, 1, 1, "TRK0000000000"⟩], [], [], 1, 3, 1⟩

/-- Context for the C4 witness. -/
def wCtx4 : Ctx :=
  ⟨some 1, ⟨some [⟨some 5, none, 1, some 10, none⟩], some addrA, some addrB, 10⟩,
    [], 0, 100000000, []⟩

theorem tracking_exhaustion_conflict_witness :
    createOrder wDb4 wCtx4 = ⟨500, wDb4, true, some .trackingExhausted, none⟩ ∧
    OrderError.trackingExhausted ≠ OrderError.dbFault :=
  tracking_exhaustion_conflict wDb4 wCtx4 [⟨some 5, none, 1, some 10, none⟩]
    addrA addrB 1 [] rfl rfl rfl rfl rfl rfl (by rfl) (by decide)

/-- C5: address dedup is an exact five-component equality match scoped
to the owning user: a match reuses the stored id with no insert, a miss
inserts a row flagged for the requested role under the fresh id, the
inserted row matches a repeat of the same input, and changing any
single component defeats the match against that row. -/
theorem address_dedup_exact (db : DB) (uid : Nat) (a : AddrInput) (role : AddrRole) :
    (∀ row, db.addresses.find? (addrMatch uid a) = some row →
      findOrCreateAddress db uid a role [] = .ok (row.address_id, db, [])) ∧
    (db.addresses.find? (addrMatch uid a) = none →
      findOrCreateAddress db uid a role [] =
        .ok (db.nextAddressId,
          { db with
            addresses := db.addresses ++ [mkAddress db.nextAddressId uid a role],
            nextAddressId := db.nextAddressId + 1 }, [])) ∧
    (∀ aid : Nat, addrMatch uid a (mkAddress aid uid a role) = true) ∧
    (∀ (b : AddrInput) (aid : Nat), b ≠ a →
      addrMatch uid b (mkAddress aid uid a role) = false) := by
  refine ⟨?_, ?_, ?_, ?_⟩
  · intro row hrow
    rw [findOrCreateAddress_nofault]
    simp [dedupResult, hrow]
  · intro hnone
    rw [findOrCreateAddress_nofault]
    simp [dedupResult, hnone]
  · intro aid
    simp [addrMatch, mkAddress]
  · intro b aid hne
    obtain ⟨s1, c1, t1, u1, p1⟩ := b
    obtain ⟨s2, c2, t2, u2, p2⟩ := a
    simp only [ne_eq, AddrInput.mk.injEq, not_and] at hne
    simp only [addrMatch, mkAddress]
    by_cases e1 : s2 = s1
    · by_cases e2 : c2 = c1
      · by_cases e3 : t2 = t1
        · by_cases e4 : u2 = u1
          · by_cases e5 : p2 = p1
            · exact absurd e5.symm (hne e1.symm e2.symm e3.symm e4.symm)
            · simp [e1, e2, e3, e4, e5]
          · simp [e1, e2, e3, e4]
        · simp [e1, e2, e3]
      · simp [e1, e2]
    · simp [e1]

/-- Database for the C5 witness. -/
def wDb5 : DB := ⟨[], [], [], [], 1, 1, 1⟩

theorem address_dedup_exact_witness :
    findOrCreateAddress wDb5 7 addrA .shipping [] =
      .ok (1, ⟨[mkAddress 1 7 addrA .shipping], [], [], [], 2, 1, 1⟩, []) :=
  (address_dedup_exact wDb5 7 addrA .shipping).2.1 rfl

/-- Pointwise upgrade of the captured price to the raw request field
when every supplied unit price is truthy. -/
theorem forall2_price_truthy :
    ∀ {rows : List OrderItem} {items : List ItemInput},
      List.Forall₂ (fun (r : OrderItem) (it : ItemInput) =>
        r.unit_price = itemPrice it) rows items →
      (∀ it ∈ items, truthy it.unit_price = true) →
      List.Forall₂ (fun (r : OrderItem) (it : ItemInput) =>
        r.unit_price = it.unit_price) rows items := by
  intro rows items h
  induction h with
  | nil => intro _; exact .nil
  | @cons r it rtail itail hab htail ih =>
    intro hall
    refine .cons ?_ (ih fun x hx => hall x (List.mem_cons_of_mem _ hx))
    have ht := hall it (List.mem_cons_self _ _)
    rw [hab]
    simp [itemPrice, jsOr, ht]

/-- C6: a successful creation inserts exactly one line-item row per
input item (so the re-read count for the new order id equals the input
count) and each captured unit price is the coalesced price supplied in
the request, a snapshot independent of the variants table; when every
item supplies a truthy `unit_price`, the snapshot is that field
verbatim. -/
theorem line_item_snapshot (db : DB) (ctx : Ctx)
    (hf : ctx.faults = [])
    (hfresh : ∀ r ∈ db.order_items, r.order_id ≠ db.nextOrderId)
    (h201 : (createOrder db ctx).status = 201) :
    ∃ items rows,
      ctx.req.items = some items ∧
      (createOrder db ctx).db.order_items = db.order_items ++ rows ∧
      rows.length = items.length ∧
      ((createOrder db ctx).db.order_items.filter
        (fun r => r.order_id == db.nextOrderId)).length = items.length ∧
      List.Forall₂ (fun (r : OrderItem) (it : ItemInput) =>
        r.quantity = it.quantity ∧ r.unit_price = itemPrice it) rows items ∧
      ((∀ it ∈ items, truthy it.unit_price = true) →
        List.Forall₂ (fun (r : OrderItem) (it : ItemInput) =>
          r.unit_price = it.unit_price) rows items) := by
  obtain ⟨items, sa, ba, uid, d, oid, hi, hne, hs, hb, hu, htx, hrun⟩ :=
    createOrder_201_inv h201
  rw [hf, createOrderTx_nofault] at htx
  cases halloc : allocateTracking (db.orders.map (fun o => o.tracking_number))
      ctx.rands ctx.fallbackRand ctx.timestamp [] with
  | error e => rw [halloc] at htx; cases htx
  | ok p =>
    obtain ⟨trk, rs, fs⟩ := p
    rw [halloc] at htx
    have hd : d = (txPure db uid items sa ba ctx.req.total trk).1 := by
      have h2 : (Except.ok (txPure db uid items sa ba ctx.req.total trk) :
          Except OrderError (DB × Nat)) = .ok (d, oid) := htx
      simp only [Except.ok.injEq] at h2
      rw [h2]
    have hspec := txPure_spec db uid items sa ba ctx.req.total trk
    have hoi : d.order_items =
        db.order_items ++ mkRows db.nextOrderId db.nextOrderItemId items := by
      rw [hd]; exact hspec.2.1
    refine ⟨items, mkRows db.nextOrderId db.nextOrderItemId items, hi, ?_, ?_, ?_, ?_, ?_⟩
    · rw [hrun]; exact hoi
    · exact mkRows_length _ _ _
    · rw [hrun]
      show (d.order_items.filter (fun r => r.order_id == db.nextOrderId)).length =
        items.length
      rw [hoi, List.filter_append]
      have hold : db.order_items.filter (fun r => r.order_id == db.nextOrderId) = [] := by
        rw [List.filter_eq_nil_iff]
        intro r hr
        simp [hfresh r hr]
      rw [hold, mkRows_filter]
      simp [mkRows_length]
    · exact List.Forall₂.imp (fun r it hp => ⟨hp.2.2.1, hp.2.2.2⟩)
        (mkRows_forall2 db.nextOrderId db.nextOrderItemId items)
    · intro hall
      exact forall2_price_truthy
        (List.Forall₂.imp (fun r it hp => hp.2.2.2)
          (mkRows_forall2 db.nextOrderId db.nextOrderItemId items)) hall

/-- Database for the C6 witness. -/
def wDb6 : DB := ⟨[], [], [], [⟨5, 10, 100⟩], 1, 1, 1⟩

/-- Context for the C6 witness: two items with truthy unit prices. -/
def wCtx6 : Ctx :=
  ⟨some 1, ⟨some [⟨some 5, none, 2, some 10, none⟩, ⟨none, some 5, 1, some 7, none⟩],
    some addrA, some addrB, 27⟩, [], 0, 1700000000000, []⟩

theorem line_item_snapshot_witness :
    ∃ items rows,
      wCtx6.req.items = some items ∧
      (createOrder wDb6 wCtx6).db.order_items = wDb6.order_items ++ rows ∧
      rows.length = items.length ∧
      ((createOrder wDb6 wCtx6).db.order_items.filter
        (fun r => r.order_id == wDb6.nextOrderId)).length = items.length ∧
      List.Forall₂ (fun (r : OrderItem) (it : ItemInput) =>
        r.quantity = it.quantity ∧ r.unit_price = itemPrice it) rows items ∧
      ((∀ it ∈ items, truthy it.unit_price = true) →
        List.Forall₂ (fun (r : OrderItem) (it : ItemInput) =>
          r.unit_price = it.unit_price) rows items) :=
  line_item_snapshot wDb6 wCtx6 rfl (by intro r hr; cases hr) (by decide)

/-- Items whose coalesced reference never matches a variant id demand
nothing from it. -/
theorem demandOn_zero (vid : Nat) :
    ∀ (items : List ItemInput),
      (∀ it ∈ items, (itemRef it == some vid) = false) →
      demandOn vid items = 0 := by
  intro items
  induction items with
  | nil => intro _; rfl
  | cons it rest ih =>
    intro hall
    have h1 := hall it (List.mem_cons_self _ _)
    simp [demandOn, wantsDec, h1, ih fun x hx => hall x (List.mem_cons_of_mem _ hx)]

/-- C7: with a valid request and no injected faults the order commits
regardless of whether variant references resolve; every stored variant
row is decremented by exactly the total quantity the items demand from
it (an integer, so it may go negative, with no floor check), items
whose reference matches no stored variant change no stock, and one
line-item row per input item is still inserted. -/
theorem stock_decrement_exact (db : DB) (ctx : Ctx) (items : List ItemInput)
    (sa ba : AddrInput) (uid : Nat) (trk : String) (rs : List Nat)
    (hi : ctx.req.items = some items) (hne : items.isEmpty = false)
    (hs : ctx.req.shipping_address = some sa) (hb : ctx.req.billing_address = some ba)
    (hu : ctx.userId = some uid) (hf : ctx.faults = [])
    (halloc : allocateTracking (db.orders.map (fun o => o.tracking_number)) ctx.rands
      ctx.fallbackRand ctx.timestamp [] = .ok (trk, rs, [])) :
    (createOrder db ctx).status = 201 ∧
    (createOrder db ctx).db.variants =
      db.variants.map (fun v =>
        { v with stock_quantity := v.stock_quantity -
          (demandOn v.variant_id items : Int) }) ∧
    (∀ v ∈ db.variants, (∀ it ∈ items, (itemRef it == some v.variant_id) = false) →
      demandOn v.variant_id items = 0) ∧
    ∃ rows, (createOrder db ctx).db.order_items = db.order_items ++ rows ∧
      rows.length = items.length := by
  have hrun := createOrder_nofault_run db ctx items sa ba uid hi hne hs hb hu hf
  rw [halloc] at hrun
  have hspec := txPure_spec db uid items sa ba ctx.req.total trk
  refine ⟨by rw [hrun], ?_, ?_, ?_⟩
  · rw [hrun]
    exact hspec.2.2.1
  · intro v _ hnone
    exact demandOn_zero v.variant_id items hnone
  · refine ⟨mkRows db.nextOrderId db.nextOrderItemId items, ?_, mkRows_length _ _ _⟩
    rw [hrun]
    exact hspec.2.1

/-- Database for the C7 witness: variant 5 has only one unit in stock. -/
def wDb7 : DB := ⟨[], [], [], [⟨5, 1, 100⟩, ⟨6, 4, 50⟩], 1, 1, 1⟩

/-- Context for the C7 witness: five units of variant 5 are ordered
(driving its stock negative) and one item references the unknown
variant 9. -/
def wCtx7 : Ctx :=
  ⟨some 1, ⟨some [⟨some 5, none, 5, some 10, none⟩, ⟨some 9, none, 2, some 3, none⟩],
    some addrA, some addrB, 56⟩, [], 0, 1700000000000, []⟩

theorem stock_decrement_exact_witness :
    ((createOrder wDb7 wCtx7).status = 201 ∧
      (createOrder wDb7 wCtx7).db.variants =
        wDb7.variants.map (fun v =>
          { v with stock_quantity := v.stock_quantity -
            (demandOn v.variant_id
              [⟨some 5, none, 5, some 10, none⟩, ⟨some 9, none, 2, some 3, none⟩] :
              Int) }) ∧
      (∀ v ∈ wDb7.variants,
        (∀ it ∈ [(⟨some 5, none, 5, some 10, none⟩ : ItemInput),
            ⟨some 9, none, 2, some 3, none⟩],
          (itemRef it == some v.variant_id) = false) →
        demandOn v.variant_id
          [⟨some 5, none, 5, some 10, none⟩, ⟨some 9, none, 2, some 3, none⟩] = 0) ∧
      ∃ rows, (createOrder wDb7 wCtx7).db.order_items = wDb7.order_items ++ rows ∧
        rows.length = ([(⟨some 5, none, 5, some 10, none⟩ : ItemInput),
          ⟨some 9, none, 2, some 3, none⟩]).length) ∧
    (createOrder wDb7 wCtx7).db.variants = [⟨5, -4, 100⟩, ⟨6, 4, 50⟩] :=
  ⟨stock_decrement_exact wDb7 wCtx7
    [⟨some 5, none, 5, some 10, none⟩, ⟨some 9, none, 2, some 3, none⟩]
    addrA addrB 1 (genTracking 0) [] rfl rfl rfl rfl rfl rfl (by rfl),
    by decide⟩

/-- C8: self-service cancellation answers 200 exactly when the user
owns an order with that id whose status is pending or processing; on
success every row matching the id and owner becomes cancelled, and on
rejection the database is completely unchanged. -/
theorem cancel_selfservice (db : DB) (uid oid : Nat) :
    ((cancelOrder db (some uid) oid).1 = 200 ↔
      ∃ o ∈ db.orders, o.order_id = oid ∧ o.user_id = uid ∧
        (o.status = OrderStatus.pending ∨ o.status = OrderStatus.processing)) ∧
    ((cancelOrder db (some uid) oid).1 = 200 →
      (cancelOrder db (some uid) oid).2.orders = db.orders.map (fun o =>
        if o.order_id == oid && o.user_id == uid then { o with status := .cancelled }
        else o)) ∧
    ((cancelOrder db (some uid) oid).1 ≠ 200 →
      (cancelOrder db (some uid) oid).2 = db) := by
  have hcan : cancelOrder db (some uid) oid =
      (if (db.orders.filter (cancellable oid uid)).isEmpty = true then (404, db)
       else (200, { db with orders := db.orders.map (fun o =>
         if o.order_id == oid && o.user_id == uid then { o with status := .cancelled }
         else o) })) := rfl
  rw [hcan]
  by_cases hemp : (db.orders.filter (cancellable oid uid)).isEmpty = true
  · rw [if_pos hemp]
    refine ⟨⟨fun h => absurd h (by simp), fun hex => ?_⟩, fun h => absurd h (by simp),
      fun _ => rfl⟩
    exfalso
    obtain ⟨o, ho, h1, h2, h3⟩ := hex
    have hc : cancellable oid uid o = true := by
      rcases h3 with h3 | h3 <;> simp [cancellable, h1, h2, h3]
    have hmem := List.mem_filter.2 ⟨ho, hc⟩
    rw [List.isEmpty_iff] at hemp
    rw [hemp] at hmem
    cases hmem
  · rw [if_neg hemp]
    have hne : db.orders.filter (cancellable oid uid) ≠ [] := by
      intro hnil
      exact hemp (by rw [hnil]; rfl)
    refine ⟨⟨fun _ => ?_, fun _ => rfl⟩, fun _ => rfl, fun h => absurd rfl h⟩
    obtain ⟨o, ho⟩ := List.exists_mem_of_ne_nil _ hne
    obtain ⟨homem, hoc⟩ := List.mem_filter.1 ho
    simp only [cancellable, Bool.and_eq_true, Bool.or_eq_true, beq_iff_eq] at hoc
    exact ⟨o, homem, hoc.1.1, hoc.1.2, hoc.2⟩

/-- Database for the C8 witness: order 1 is pending and owned by user
1, order 2 is already shipped. -/
def wDb8 : DB :=
  ⟨[], [⟨1, 1, 10, .pending, 1, 1, "TRK111111"⟩,
    ⟨2, 1, 20, .shipped, 1, 1, "TRK222222"⟩], [], [], 1, 3, 1⟩

theorem cancel_selfservice_witness :
    (cancelOrder wDb8 (some 1) 1).1 = 200 ∧
    (cancelOrder wDb8 (some 1) 1).2.orders = wDb8.orders.map (fun o =>
      if o.order_id == 1 && o.user_id == 1 then { o with status := .cancelled }
      else o) ∧
    (cancelOrder wDb8 (some 1) 2).1 ≠ 200 ∧
    (cancelOrder wDb8 (some 1) 2).2 = wDb8 :=
  ⟨(cancel_selfservice wDb8 1 1).1.mpr (by decide),
    (cancel_selfservice wDb8 1 1).2.1 (by decide),
    by decide,
    (cancel_selfservice wDb8 1 2).2.2 (by decide)⟩

/-- Database for the C9 counterexample. -/
def cDb9 : DB := ⟨[], [], [], [], 1, 1, 1⟩

/-- Context for the C9 counterexample: the client supplies total 999
for a single line worth 10, and the server commits it unchecked. -/
def cCtx9 : Ctx :=
  ⟨some 1, ⟨some [⟨none, none, 1, some 10, none⟩], some addrA, some addrB, 999⟩,
    [], 0, 100000000, []⟩

/-- C9 counterexample: a creation request whose client-supplied total
does not equal the line items' quantity-times-price sum still commits,
so the stored total of the committed order differs from its line-item
sum. -/
theorem order_total_counterexample :
    (createOrder cDb9 cCtx9).status = 201 ∧
    (createOrder cDb9 cCtx9).db.orders.map (fun o => o.total_amount) = [999] ∧
    itemsSumAt (createOrder cDb9 cCtx9).db 1 = 10 ∧ (10 : Nat) ≠ 999 := by decide

/-- C9 amended: the committed order stores exactly the client-supplied
total, and the line-item-sum invariant holds for every committed order
whose request supplied a consistent total (the server never checks
it). -/
theorem order_total_amended (db : DB) (ctx : Ctx)
    (hf : ctx.faults = [])
    (hfresh : ∀ r ∈ db.order_items, r.order_id ≠ db.nextOrderId)
    (hcons : ∀ items, ctx.req.items = some items → ctx.req.total = itemsSumOf items)
    (h201 : (createOrder db ctx).status = 201) :
    ∃ o : Order, (createOrder db ctx).db.orders = db.orders ++ [o] ∧
      o.total_amount = ctx.req.total ∧
      itemsSumAt (createOrder db ctx).db o.order_id = o.total_amount := by
  obtain ⟨items, sa, ba, uid, d, oid, hi, hne, hs, hb, hu, htx, hrun⟩ :=
    createOrder_201_inv h201
  rw [hf, createOrderTx_nofault] at htx
  cases halloc : allocateTracking (db.orders.map (fun o => o.tracking_number))
      ctx.rands ctx.fallbackRand ctx.timestamp [] with
  | error e => rw [halloc] at htx; cases htx
  | ok p =>
    obtain ⟨trk, rs, fs⟩ := p
    rw [halloc] at htx
    have h2 : (Except.ok (txPure db uid items sa ba ctx.req.total trk) :
        Except OrderError (DB × Nat)) = .ok (d, oid) := htx
    simp only [Except.ok.injEq] at h2
    have hd : d = (txPure db uid items sa ba ctx.req.total trk).1 := by rw [h2]
    have hspec := txPure_spec db uid items sa ba ctx.req.total trk
    obtain ⟨shipId, billId, hords⟩ := hspec.2.2.2
    refine ⟨⟨db.nextOrderId, uid, ctx.req.total, .pending, shipId, billId, trk⟩,
      ?_, rfl, ?_⟩
    · rw [hrun]
      show d.orders = _
      rw [hd]
      exact hords
    · rw [hrun]
      show itemsSumAt d db.nextOrderId = ctx.req.total
      rw [hd]
      unfold itemsSumAt
      rw [hspec.2.1, List.filter_append]
      have hold : db.order_items.filter (fun r => r.order_id == db.nextOrderId) = [] := by
        rw [List.filter_eq_nil_iff]
        intro r hr
        simp [hfresh r hr]
      rw [hold, mkRows_filter]
      simp only [List.nil_append]
      rw [mkRows_sum]
      exact (hcons items hi).symm

/-- Database for the C9 amended-claim witness. -/
def wDb9 : DB := ⟨[], [], [], [], 1, 1, 1⟩

/-- Context for the C9 amended-claim witness: the supplied total 10
equals the item sum 2 times 5. -/
def wCtx9 : Ctx :=
  ⟨some 1, ⟨some [⟨none, none, 2, some 5, none⟩], some addrA, some addrB, 10⟩,
    [], 0, 100000000, []⟩

theorem order_total_amended_witness :
    ∃ o : Order, (createOrder wDb9 wCtx9).db.orders = wDb9.orders ++ [o] ∧
      o.total_amount = wCtx9.req.total ∧
      itemsSumAt (createOrder wDb9 wCtx9).db o.order_id = o.total_amount :=
  order_total_amended wDb9 wCtx9 rfl (by intro r hr; cases hr)
    (by intro items h; injection h with h2; subst h2; rfl) (by decide)

/-- C10: the recorded variant reference and unit price follow the
JavaScript truthiness coalescing of the request fields (so a zero
`unit_price` records the `price` field), the committed stock effect is
the aggregate decrement map, items with no truthy reference decrement
nothing, both references absent record a NULL reference, and the order
still succeeds. -/
theorem item_field_coalescing (db : DB) (ctx : Ctx) (items : List ItemInput)
    (sa ba : AddrInput) (uid : Nat) (trk : String) (rs : List Nat)
    (hi : ctx.req.items = some items) (hne : items.isEmpty = false)
    (hs : ctx.req.shipping_address = some sa) (hb : ctx.req.billing_address = some ba)
    (hu : ctx.userId = some uid) (hf : ctx.faults = [])
    (halloc : allocateTracking (db.orders.map (fun o => o.tracking_number)) ctx.rands
      ctx.fallbackRand ctx.timestamp [] = .ok (trk, rs, [])) :
    (createOrder db ctx).status = 201 ∧
    (∃ rows, (createOrder db ctx).db.order_items = db.order_items ++ rows ∧
      List.Forall₂ (fun (r : OrderItem) (it : ItemInput) =>
        r.variant_id = jsOr it.variant_id it.product_id ∧
        r.unit_price = jsOr it.unit_price it.price) rows items) ∧
    (createOrder db ctx).db.variants = db.variants.map (decStock items) ∧
    (∀ it : ItemInput, it.unit_price = some 0 → itemPrice it = it.price) ∧
    (∀ (vid : Nat) (it : ItemInput), truthy (itemRef it) = false →
      wantsDec vid it = false) ∧
    jsOr none none = (none : Option Nat) := by
  have hrun := createOrder_nofault_run db ctx items sa ba uid hi hne hs hb hu hf
  rw [halloc] at hrun
  have hspec := txPure_spec db uid items sa ba ctx.req.total trk
  refine ⟨by rw [hrun], ⟨mkRows db.nextOrderId db.nextOrderItemId items, ?_, ?_⟩,
    by rw [hrun]; exact hspec.2.2.1, ?_, ?_, rfl⟩
  · rw [hrun]
    exact hspec.2.1
  · exact List.Forall₂.imp (fun r it hp => ⟨hp.2.1, hp.2.2.2⟩)
      (mkRows_forall2 db.nextOrderId db.nextOrderItemId items)
  · intro it h0
    simp [itemPrice, jsOr, truthy, h0]
  · intro vid it hf0
    simp [wantsDec, hf0]

/-- Database for the C10 witness. -/
def wDb10 : DB := ⟨[], [], [], [⟨7, 10, 99⟩], 1, 1, 1⟩

/-- Items for the C10 witness: one item with a zero unit price and a
product-id reference, one item with no reference at all. -/
def wItems10 : List ItemInput :=
  [⟨none, some 7, 3, some 0, some 25⟩, ⟨none, none, 1, none, some 5⟩]

/-- Context for the C10 witness. -/
def wCtx10 : Ctx :=
  ⟨some 1, ⟨some wItems10, some addrA, some addrB, 80⟩, [], 0, 100000000, []⟩

theorem item_field_coalescing_witness :
    ((createOrder wDb10 wCtx10).status = 201 ∧
      (∃ rows, (createOrder wDb10 wCtx10).db.order_items = wDb10.order_items ++ rows ∧
        List.Forall₂ (fun (r : OrderItem) (it : ItemInput) =>
          r.variant_id = jsOr it.variant_id it.product_id ∧
          r.unit_price = jsOr it.unit_price it.price) rows wItems10) ∧
      (createOrder wDb10 wCtx10).db.variants = wDb10.variants.map (decStock wItems10) ∧
      (∀ it : ItemInput, it.unit_price = some 0 → itemPrice it = it.price) ∧
      (∀ (vid : Nat) (it : ItemInput), truthy (itemRef it) = false →
        wantsDec vid it = false) ∧
      jsOr none none = (none : Option Nat)) ∧
    (createOrder wDb10 wCtx10).db.variants = [⟨7, 7, 99⟩] :=
  ⟨item_field_coalescing wDb10 wCtx10 wItems10 addrA addrB 1 (genTracking 0) []
    rfl rfl rfl rfl rfl rfl (by rfl), by decide⟩
